import Mathlib

/-!
Verification development for the polymarket-terminal market-maker core.

The definitions below are a shallow embedding of the JavaScript source:

* `services/ctf.js` — the Gnosis-Safe transaction serializer (`execSafeCall`,
  `_doExecSafeCall`), the on-chain error formatter (`parseOnchainError`),
  and the CTF primitives (`splitPosition`).
* `services/mmExecutor.js` — the market-maker strategy (`executeMMStrategy`),
  the monitoring loop (`monitorAndManage`), the cut-loss routines
  (`cutLossOneLegFilled`, `cutLossNeitherFilled`, `adaptiveLegCL`), and the
  order helpers (`isOrderFilled`).
* `mm-bot.js` — the per-asset dispatcher (`handleNewMarket`, `runStrategy`).

Money and prices are modelled as rationals (the source uses 64-bit floats;
every property below is about comparisons and exact field values, for which
the rational model is the faithful idealization).  External effects (RPC
reads, CLOB queries, fee oracle) are supplied as explicit environment
parameters, and on-chain or venue side effects are recorded as event lists.
-/

namespace PolymarketTerminal

/-- Receipts returned by a confirmed Safe transaction are abstract. -/
abbrev Receipt := Nat

/-- The error classes that `parseOnchainError` in `ctf.js` distinguishes by
substring matching on the raw provider error.  Each constructor corresponds
to one branch of the cascade; `other` carries the first line of an
unrecognized message. -/
inductive OnchainError where
  | insufficientFunds
  | nonceTooLow
  | replacementUnderpriced
  | gasTipTooLow
  | unpredictableGasLimit
  | executionReverted (reason : Option String)
  | rpcTimeout
  | serverError
  | networkError
  | connectionRefused
  | headerNotFound
  | other (firstLine : String)
  deriving DecidableEq, Repr

/-- Model of `parseOnchainError` (ctf.js): converts a raw error into a short
one-line human-readable message, one branch per recognized substring. -/
def parseOnchainError : OnchainError → String
  | OnchainError.insufficientFunds => "Insufficient MATIC balance for gas fees"
  | OnchainError.nonceTooLow => "Transaction nonce conflict (nonce already used)"
  | OnchainError.replacementUnderpriced => "Gas price too low to replace previous transaction"
  | OnchainError.gasTipTooLow => "Priority fee below Polygon minimum (25 Gwei)"
  | OnchainError.unpredictableGasLimit => "Gas estimation failed - transaction will likely revert"
  | OnchainError.executionReverted (some r) => "Transaction reverted: " ++ r
  | OnchainError.executionReverted none => "Transaction reverted by smart contract"
  | OnchainError.rpcTimeout => "RPC request timed out"
  | OnchainError.serverError => "RPC server error"
  | OnchainError.networkError => "Network connection lost"
  | OnchainError.connectionRefused => "Cannot connect to Polygon RPC"
  | OnchainError.headerNotFound => "RPC node not synced - please retry"
  | OnchainError.other s =>
      if 120 < s.length then s.take 120 ++ "..."
      else if s = ("") then "Unknown error" else s

/-- The transient error conditions per the specification: RPC timeout, server
error, network error, connection refused, stale node. -/
def isTransientPerSpec : OnchainError → Bool
  | OnchainError.rpcTimeout => true
  | OnchainError.serverError => true
  | OnchainError.networkError => true
  | OnchainError.connectionRefused => true
  | OnchainError.headerNotFound => true
  | _ => false

/-- The terminal error conditions per the specification: execution reverted,
insufficient funds, unpredictable gas limit, nonce-already-used. -/
def isTerminalPerSpec : OnchainError → Bool
  | OnchainError.executionReverted _ => true
  | OnchainError.insufficientFunds => true
  | OnchainError.unpredictableGasLimit => true
  | OnchainError.nonceTooLow => true
  | _ => false

-- ── Fee logic of `_doExecSafeCall` ──────────────────────────────────────────

/-- The priority-fee floor of 30 gwei, in wei (`MIN_TIP` in ctf.js). -/
def MIN_TIP_WEI : ℤ := 30000000000

/-- The fallback of 500 gwei, in wei, used when the fee oracle returns no
`maxFeePerGas` (ctf.js uses `feeData.maxFeePerGas ?? parseUnits(500, gwei)`). -/
def DEFAULT_FEE_CAP_WEI : ℤ := 500000000000

/-- Result of `provider.getFeeData()`: either field may be absent. -/
structure FeeData where
  maxPriorityFeePerGas : Option ℤ
  maxFeePerGas : Option ℤ
  deriving DecidableEq, Repr

/-- Model of `gasTip` in `_doExecSafeCall`:
`feeData.maxPriorityFeePerGas?.gt(MIN_TIP) ? feeData.maxPriorityFeePerGas : MIN_TIP`. -/
def gasTip (fd : FeeData) : ℤ :=
  match fd.maxPriorityFeePerGas with
  | some t => if MIN_TIP_WEI < t then t else MIN_TIP_WEI
  | none => MIN_TIP_WEI

/-- Model of `gasFeeCap` in `_doExecSafeCall`:
`feeData.maxFeePerGas ?? parseUnits(500, gwei)`. -/
def gasFeeCap (fd : FeeData) : ℤ :=
  fd.maxFeePerGas.getD DEFAULT_FEE_CAP_WEI

-- ── The retrying executor `_doExecSafeCall` ─────────────────────────────────

/-- What the chain environment does for one attempt of `_doExecSafeCall`:
the fee-oracle answer and the outcome of submitting and awaiting the
transaction (any error thrown inside the `try` block ends the attempt). -/
structure AttemptEnv where
  feeData : FeeData
  outcome : Except OnchainError Receipt

/-- Observable events of one `_doExecSafeCall` run: the wallet nonce read,
the transaction submission with its effective fee fields, and the back-off
sleeps between attempts. -/
inductive ExecEv where
  | nonceRead (attempt : Nat)
  | submitted (attempt : Nat) (tip feeCap : ℤ)
  | slept (ms : Nat)
  deriving DecidableEq, Repr

def MAX_RETRIES : Nat := 3

def RETRY_DELAY : Nat := 3000

/-- One pass of the attempt loop of `_doExecSafeCall`: `attempt` is the
1-based attempt counter, `remaining` the number of attempts still allowed
(the source iterates `attempt = 1 .. MAX_RETRIES`).  Every caught error is
retried while attempts remain; after the last attempt the loop throws
`parseOnchainError(lastErr)`. -/
def doExecGo (env : Nat → AttemptEnv) : Nat → Nat → List ExecEv × Except String Receipt
  | _, 0 => ([], Except.error ("Unknown error"))
  | attempt, remaining + 1 =>
    match (env attempt).outcome with
    | Except.ok r =>
      ([ExecEv.nonceRead attempt,
        ExecEv.submitted attempt (gasTip (env attempt).feeData) (gasFeeCap (env attempt).feeData)],
       Except.ok r)
    | Except.error err =>
      if remaining = 0 then
        ([ExecEv.nonceRead attempt,
          ExecEv.submitted attempt (gasTip (env attempt).feeData) (gasFeeCap (env attempt).feeData)],
         Except.error (parseOnchainError err))
      else
        ([ExecEv.nonceRead attempt,
          ExecEv.submitted attempt (gasTip (env attempt).feeData) (gasFeeCap (env attempt).feeData)]
           ++ ExecEv.slept RETRY_DELAY :: (doExecGo env (attempt + 1) remaining).1,
         (doExecGo env (attempt + 1) remaining).2)

/-- Model of `_doExecSafeCall` (ctf.js): up to `MAX_RETRIES` attempts, each
reading the nonce and submitting; returns the receipt of the first successful
attempt or the parsed one-line message of the last error. -/
def doExecSafeCall (env : Nat → AttemptEnv) : List ExecEv × Except String Receipt :=
  doExecGo env 1 MAX_RETRIES

-- ── The promise-chain queue of `execSafeCall` ───────────────────────────────

/-- Global trace events of the serializer: the inner executor events of call
`callIdx`, and the settlement of call `callIdx` (true = fulfilled). -/
inductive QEv where
  | exec (callIdx : Nat) (e : ExecEv)
  | resolved (callIdx : Nat) (ok : Bool)
  deriving DecidableEq, Repr

def QEv.callIdx : QEv → Nat
  | QEv.exec i _ => i
  | QEv.resolved i _ => i

/-- Denotational model of a JavaScript promise in the single-threaded event
loop: running it extends the global trace and settles with a value or an
error. -/
abbrev PromiseM (α : Type) := List QEv → List QEv × Except String α

def promisePure {α : Type} (a : α) : PromiseM α := fun tr => (tr, Except.ok a)

/-- Model of `p.then(f)`: `f` runs only after `p` fulfills; a rejection of
`p` propagates. -/
def promiseThen {α β : Type} (p : PromiseM α) (f : α → PromiseM β) : PromiseM β := fun tr =>
  match p tr with
  | (tr2, Except.ok a) => f a tr2
  | (tr2, Except.error e) => (tr2, Except.error e)

/-- Model of `p.catch(() => undefined)`: always fulfills once `p` settles. -/
def promiseCatchToUnit {α : Type} (p : PromiseM α) : PromiseM Unit := fun tr =>
  ((p tr).1, Except.ok ())

/-- The events one queued call contributes to the global trace: its
`_doExecSafeCall` events tagged with its call index, then its settlement. -/
def callEvents (i : Nat) (env : Nat → AttemptEnv) : List QEv :=
  (doExecSafeCall env).1.map (QEv.exec i) ++
    [QEv.resolved i (doExecSafeCall env).2.isOk]

/-- The promise performing call `i`: appends the call events and settles with
the executor outcome. -/
def callTask (i : Nat) (env : Nat → AttemptEnv) : PromiseM Receipt := fun tr =>
  (tr ++ callEvents i env, (doExecSafeCall env).2)

/-- Model of `execSafeCall` (ctf.js): the new call is chained onto the queue
with `.then`, and the queue becomes `result.catch(() => undefined)` so that a
failure does not poison the queue. -/
def execSafeCallStep (queue : PromiseM Unit) (i : Nat) (env : Nat → AttemptEnv) :
    PromiseM Receipt × PromiseM Unit :=
  let result := promiseThen queue (fun _ => callTask i env)
  (result, promiseCatchToUnit result)

/-- The queue after enqueuing the given calls in order, starting from the
initially resolved `_txQueue = Promise.resolve()`. -/
def chainQueue (calls : List (Nat × (Nat → AttemptEnv))) : PromiseM Unit :=
  calls.foldl (fun q c => (execSafeCallStep q c.1 c.2).2) (promisePure ())

/-- The global trace produced by running the whole queue. -/
def queueTrace (envs : List (Nat → AttemptEnv)) : List QEv :=
  (chainQueue envs.enum []).1

-- ── CTF primitives ──────────────────────────────────────────────────────────

/-- Practical minimum shares per side enforced by `splitPosition` (ctf.js). -/
def MIN_SHARES_PER_SIDE : ℚ := 5 / 2

/-- On-chain approval state read by the idempotent approval helpers. -/
structure ChainApprovalState where
  usdcAllowanceSufficient : Bool
  exchangeApproved : Bool
  deriving DecidableEq, Repr

/-- The Safe calls the CTF layer can emit. -/
inductive SafeCallKind where
  | approveUsdc
  | setApprovalForAll
  | splitCall (amountUsdc : ℚ)
  | mergeCall (amountUsdc : ℚ)
  deriving DecidableEq, Repr

/-- Model of `splitPosition(conditionId, amountUsdc, negRisk)` (ctf.js).
`shares = amountUsdc`; rejects below `MIN_SHARES_PER_SIDE` before any
on-chain work; in dry-run mode returns the share count without any Safe call;
otherwise performs the (conditional) approvals and the split call.  Returns
the list of Safe calls emitted together with the result. -/
def splitPosition (dryRun : Bool) (chain : ChainApprovalState) (conditionId : String)
    (amountUsdc : ℚ) : List SafeCallKind × Except String ℚ :=
  let shares := amountUsdc
  if shares < MIN_SHARES_PER_SIDE then
    ([], Except.error ("MM_TRADE_SIZE too small"))
  else if dryRun then
    ([], Except.ok shares)
  else
    ((if chain.usdcAllowanceSufficient then [] else [SafeCallKind.approveUsdc]) ++
       (if chain.exchangeApproved then [] else [SafeCallKind.setApprovalForAll]) ++
       [SafeCallKind.splitCall amountUsdc],
     Except.ok shares)

-- ── Order helpers (mmExecutor.js) ───────────────────────────────────────────

/-- Result of `client.getOrder(orderId)` as seen by `isOrderFilled`: a thrown
error, a null order, or an order with a `status` string and a parsed
`size_matched` (a missing `size_matched` field parses as 0). -/
inductive OrderQueryResult where
  | queryError
  | missing
  | found (status : String) (sizeMatched : ℚ)
  deriving DecidableEq, Repr

/-- Model of `isOrderFilled(orderId, shares)` (mmExecutor.js): false for a
null or simulated order id; otherwise true when the order's status is
MATCHED or its matched size reaches 99 percent of the expected size; false
on a query error or missing order. -/
def isOrderFilled (orderId : Option String) (shares : ℚ) (q : OrderQueryResult) : Bool :=
  match orderId with
  | none => false
  | some oid =>
    if oid.startsWith ("sim-") then false
    else
      match q with
      | OrderQueryResult.queryError => false
      | OrderQueryResult.missing => false
      | OrderQueryResult.found st m =>
        if st = ("MATCHED") then true
        else decide (shares * (99 / 100) ≤ m)

/-- Result of `createAndPostMarketOrder` as used by `marketSell`:
success flag and the fill price (0 when absent or failed). -/
structure MarketSellResult where
  success : Bool
  fillPrice : ℚ
  deriving DecidableEq, Repr

/-- Result of `placeLimitSell`: success flag and the order id (absent on
failure). -/
structure PlaceResult where
  success : Bool
  orderId : Option String
  deriving DecidableEq, Repr

-- ── Data model (mmExecutor.js position objects) ─────────────────────────────

/-- The configuration fields of `config/index.js` the MM engine reads. -/
structure MMConfig where
  dryRun : Bool
  mmTradeSize : ℚ
  mmSellPrice : ℚ
  mmCutLossTime : ℤ
  mmAdaptiveCL : Bool
  mmAdaptiveMinCombined : ℚ
  mmAdaptiveMonitorSec : ℤ
  mmRecoveryBuy : Bool
  deriving DecidableEq, Repr

/-- A detected market as passed to `executeMMStrategy`. -/
structure MarketInfo where
  asset : String
  conditionId : String
  question : String
  endMs : ℤ
  yesTokenId : String
  noTokenId : String
  negRisk : Bool
  tickSize : ℚ
  deriving DecidableEq, Repr

/-- One leg of a position (the `yes` / `no` objects built by
`executeMMStrategy`). -/
structure Leg where
  tokenId : String
  shares : ℚ
  entryPrice : ℚ
  entryCost : ℚ
  orderId : Option String
  filled : Bool
  fillPrice : Option ℚ
  deriving DecidableEq, Repr

/-- A live MM position (the `pos` object of `executeMMStrategy`). -/
structure Position where
  asset : String
  conditionId : String
  endMs : ℤ
  tickSize : ℚ
  negRisk : Bool
  status : String
  yes : Leg
  no : Leg
  deriving DecidableEq, Repr

-- ── Strategy entry (`executeMMStrategy`, mmExecutor.js) ─────────────────────

/-- External results consumed by the entry phase of `executeMMStrategy`:
the USDC balance read, the approval state seen by `splitPosition`, and the
outcomes of the two initial GTC limit-sell placements. -/
structure EntryEnv where
  balance : ℚ
  chain : ChainApprovalState
  yesSell : PlaceResult
  noSell : PlaceResult
  deriving DecidableEq, Repr

/-- Outcome of the entry phase: aborted on balance, aborted on split, or a
built position together with the Safe calls of the split and the two limit
sells placed as (tokenId, size, price). -/
inductive EntryOutcome where
  | insufficientBalance
  | splitFailed (msg : String)
  | entered (splitCalls : List SafeCallKind) (sells : List (String × ℚ × ℚ)) (pos : Position)
  deriving DecidableEq, Repr

/-- Model of the entry phase of `executeMMStrategy(market)` (mmExecutor.js):
balance check against `mmTradeSize * 2` (skipped in dry-run), split of
`mmTradeSize * 2` USDC, two GTC limit sells at `mmSellPrice` for the full
share count returned by the split, and construction of the position object
with `entryPrice = 0.50`, `filled = !sell.success` and `fillPrice = null`. -/
def executeMMStrategyEntry (cfg : MMConfig) (mkt : MarketInfo) (env : EntryEnv) : EntryOutcome :=
  let totalNeeded := cfg.mmTradeSize * 2
  if cfg.dryRun = false ∧ env.balance < totalNeeded then
    EntryOutcome.insufficientBalance
  else
    match splitPosition cfg.dryRun env.chain mkt.conditionId totalNeeded with
    | (_, Except.error m) => EntryOutcome.splitFailed m
    | (calls, Except.ok shares) =>
      EntryOutcome.entered calls
        [(mkt.yesTokenId, shares, cfg.mmSellPrice), (mkt.noTokenId, shares, cfg.mmSellPrice)]
        { asset := mkt.asset
          conditionId := mkt.conditionId
          endMs := mkt.endMs
          tickSize := mkt.tickSize
          negRisk := mkt.negRisk
          status := ("monitoring")
          yes := { tokenId := mkt.yesTokenId, shares := shares, entryPrice := 1 / 2,
                   entryCost := cfg.mmTradeSize, orderId := env.yesSell.orderId,
                   filled := !env.yesSell.success, fillPrice := none }
          no := { tokenId := mkt.noTokenId, shares := shares, entryPrice := 1 / 2,
                  entryCost := cfg.mmTradeSize, orderId := env.noSell.orderId,
                  filled := !env.noSell.success, fillPrice := none } }

-- ── Cut-loss routines (mmExecutor.js) ───────────────────────────────────────

/-- Venue-visible effects of the monitoring and cut-loss code. -/
inductive MonEffect where
  | cancelledOrder (orderId : Option String)
  | merged (amount : ℚ)
  | marketSold (tokenId : String) (amount : ℚ)
  | recoveryBuyAttempted
  deriving DecidableEq, Repr

/-- Model of `cutLossOneLegFilled(pos, unfilledKey)` (mmExecutor.js): cancel
the unfilled order, read the on-chain balance (`none` models a failed read,
falling back to `leg.shares`), treat a dust balance as already sold at
`mmSellPrice`, otherwise market-sell the resolved share count. -/
def cutLossOneLegFilled (cfg : MMConfig) (leg : Leg) (balance : Option ℚ)
    (sellRes : MarketSellResult) : Leg × List MonEffect :=
  let sellShares := balance.getD leg.shares
  if sellShares < 1 / 1000 then
    ({ leg with fillPrice := some cfg.mmSellPrice, filled := true },
     [MonEffect.cancelledOrder leg.orderId])
  else
    ({ leg with fillPrice := some sellRes.fillPrice, filled := true },
     [MonEffect.cancelledOrder leg.orderId, MonEffect.marketSold leg.tokenId sellShares])

/-- Model of `cutLossNeitherFilled(pos)` (mmExecutor.js): cancel both orders,
read both on-chain balances (with `pos.*.shares` fallback), merge the
minimum when it is not dust, close both legs at entry price, mark done, and
attempt the recovery buy when enabled. -/
def cutLossNeitherFilled (cfg : MMConfig) (pos : Position) (yesBal noBal : Option ℚ) :
    Position × List MonEffect :=
  let yesShares := yesBal.getD pos.yes.shares
  let noShares := noBal.getD pos.no.shares
  let mergeAmt := min yesShares noShares
  ({ pos with
      status := ("done")
      yes := { pos.yes with fillPrice := some pos.yes.entryPrice, filled := true }
      no := { pos.no with fillPrice := some pos.no.entryPrice, filled := true } },
   [MonEffect.cancelledOrder pos.yes.orderId, MonEffect.cancelledOrder pos.no.orderId] ++
     (if mergeAmt < 1 / 1000 then [] else [MonEffect.merged mergeAmt]) ++
     (if cfg.mmRecoveryBuy then [MonEffect.recoveryBuyAttempted] else []))

-- ── Monitoring loop body (`monitorAndManage`, mmExecutor.js) ────────────────

/-- External observations for one monitoring iteration: the `isOrderFilled`
answers, the simulated midpoint-hit answers, the balance reads used by the
cut branches, and the market-sell result of the one-leg cut. -/
structure MonitorEnv where
  yesOrderFilled : Bool
  noOrderFilled : Bool
  yesSimHit : Option ℚ
  noSimHit : Option ℚ
  yesBalance : Option ℚ
  noBalance : Option ℚ
  unfilledSell : MarketSellResult
  deriving DecidableEq, Repr

/-- How one iteration of the `monitorAndManage` while-loop ends. -/
inductive MonitorExit where
  | expired
  | bothFilledDone
  | adaptiveBranch (unfilledKey : String)
  | cutting
  | continueLoop
  deriving DecidableEq, Repr

/-- The per-leg fill check at the top of the monitor iteration: in dry-run a
midpoint hit marks the leg filled at the hit price, otherwise a positive
`isOrderFilled` answer marks it filled at `mmSellPrice`. -/
def checkLegFill (cfg : MMConfig) (orderFilledAnswer : Bool) (simHit : Option ℚ)
    (leg : Leg) : Leg :=
  if leg.filled then leg
  else if cfg.dryRun then
    match simHit with
    | some p => { leg with filled := true, fillPrice := some p }
    | none => leg
  else if orderFilledAnswer then
    { leg with filled := true, fillPrice := some cfg.mmSellPrice }
  else leg

/-- Model of one iteration of the `monitorAndManage(pos)` while-loop
(mmExecutor.js): expiry check, per-leg fill checks, both-filled exit,
adaptive hand-off when exactly one leg is filled, and the cut-loss branches
when the cut-loss horizon is reached. -/
def monitorStep (cfg : MMConfig) (pos : Position) (msRemaining : ℤ) (env : MonitorEnv) :
    Position × MonitorExit × List MonEffect :=
  if msRemaining ≤ 0 then
    ({ pos with status := ("expired") }, MonitorExit.expired, [])
  else
    let yes2 := checkLegFill cfg env.yesOrderFilled env.yesSimHit pos.yes
    let no2 := checkLegFill cfg env.noOrderFilled env.noSimHit pos.no
    let pos2 := { pos with yes := yes2, no := no2 }
    if yes2.filled = true ∧ no2.filled = true then
      ({ pos2 with status := ("done") }, MonitorExit.bothFilledDone, [])
    else if cfg.mmAdaptiveCL = true ∧ yes2.filled ≠ no2.filled then
      (pos2, MonitorExit.adaptiveBranch (if yes2.filled then ("no") else ("yes")), [])
    else if msRemaining ≤ cfg.mmCutLossTime * 1000 then
      if cfg.mmAdaptiveCL = false ∧ yes2.filled ≠ no2.filled then
        if yes2.filled then
          let r := cutLossOneLegFilled cfg no2 env.noBalance env.unfilledSell
          ({ pos2 with no := r.1, status := ("done") }, MonitorExit.cutting, r.2)
        else
          let r := cutLossOneLegFilled cfg yes2 env.yesBalance env.unfilledSell
          ({ pos2 with yes := r.1, status := ("done") }, MonitorExit.cutting, r.2)
      else
        let r := cutLossNeitherFilled cfg pos2 env.yesBalance env.noBalance
        (r.1, MonitorExit.cutting, r.2)
    else
      (pos2, MonitorExit.continueLoop, [])

-- ── Adaptive cut-loss controller (`adaptiveLegCL`, mmExecutor.js) ───────────

/-- The profit floor of the adaptive controller:
`minAdaptivePrice = max(0, mmAdaptiveMinCombined - filledLegPrice)`. -/
def adaptiveFloor (cfg : MMConfig) (filledLegPrice : ℚ) : ℚ :=
  max 0 (cfg.mmAdaptiveMinCombined - filledLegPrice)

/-- External observations for one pass of the adaptive monitoring loop. -/
structure AdObs where
  msLeft : ℤ
  fillQuery : Bool
  simHit : Option ℚ
  mid : ℚ
  placeOk : Bool
  placeOrderId : String
  deriving DecidableEq, Repr

/-- Venue-visible events of the adaptive controller. -/
inductive AdEv where
  | cancelled
  | posted (price size : ℚ)
  | filledAt (price : ℚ)
  | soldMkt (size price : ℚ)
  deriving DecidableEq, Repr

/-- How one pass of the adaptive while-loop ends. -/
inductive AdStepOut where
  | exitCl (evs : List AdEv)
  | exitFilled (evs : List AdEv) (leg : Leg)
  | next (evs : List AdEv) (active : Option (String × ℚ))
  deriving DecidableEq, Repr

/-- One pass of the `adaptiveLegCL` while-loop (mmExecutor.js): cut-loss-time
exit, fill check of the active limit, midpoint read (a non-positive read
skips the pass), cancel on below-floor or hard drop, cancel on a 2 percent
improvement, and placement at `min(mid, mmSellPrice)` only when the midpoint
is at or above the floor. -/
def adaptiveIter (cfg : MMConfig) (floorPrice sellShares : ℚ) (leg : Leg)
    (active : Option (String × ℚ)) (o : AdObs) : AdStepOut :=
  if o.msLeft ≤ cfg.mmCutLossTime * 1000 then
    AdStepOut.exitCl (if active.isSome then [AdEv.cancelled] else [])
  else
    let fillHit : Option ℚ :=
      match active with
      | some al =>
        if cfg.dryRun then o.simHit
        else if o.fillQuery then some al.2 else none
      | none => none
    match fillHit with
    | some fp =>
      AdStepOut.exitFilled [AdEv.filledAt fp] { leg with fillPrice := some fp, filled := true }
    | none =>
      if o.mid ≤ 0 then AdStepOut.next [] active
      else
        let target := min o.mid cfg.mmSellPrice
        let adjusted : List AdEv × Option (String × ℚ) :=
          match active with
          | some al =>
            if o.mid < floorPrice ∨ o.mid < al.2 * (95 / 100) then ([AdEv.cancelled], none)
            else if al.2 * (102 / 100) < target then ([AdEv.cancelled], none)
            else ([], some al)
          | none => ([], none)
        if adjusted.2.isNone ∧ floorPrice ≤ o.mid then
          if o.placeOk then
            AdStepOut.next (adjusted.1 ++ [AdEv.posted target sellShares])
              (some (o.placeOrderId, target))
          else
            AdStepOut.next (adjusted.1 ++ [AdEv.posted target sellShares]) none
        else
          AdStepOut.next adjusted.1 adjusted.2

/-- How the adaptive monitoring loop ended. -/
inductive AdLoopEnd where
  | filledDone (leg : Leg)
  | clTime
  | ranOut
  deriving DecidableEq, Repr

/-- The adaptive while-loop over a finite list of observation passes. -/
def adaptiveLoop (cfg : MMConfig) (floorPrice sellShares : ℚ) (leg : Leg) :
    Option (String × ℚ) → List AdObs → List AdEv × AdLoopEnd
  | _, [] => ([], AdLoopEnd.ranOut)
  | active, o :: rest =>
    match adaptiveIter cfg floorPrice sellShares leg active o with
    | AdStepOut.exitCl evs => (evs, AdLoopEnd.clTime)
    | AdStepOut.exitFilled evs leg2 => (evs, AdLoopEnd.filledDone leg2)
    | AdStepOut.next evs active2 =>
      let r := adaptiveLoop cfg floorPrice sellShares leg active2 rest
      (evs ++ r.1, r.2)

/-- How an `adaptiveLegCL` run ended. -/
inductive AdExit where
  | alreadyEmpty
  | filledDone
  | clTimeMarketSold
  | observationsExhausted
  deriving DecidableEq, Repr

/-- Result of an `adaptiveLegCL` run: its venue events, the final state of
the unfilled leg, and how it ended. -/
structure AdResult where
  events : List AdEv
  leg : Leg
  exit : AdExit
  deriving DecidableEq, Repr

/-- Model of `adaptiveLegCL(pos, unfilledKey)` (mmExecutor.js):
`filledLegFillPrice` is the filled leg's `fillPrice` (`?? mmSellPrice`),
`balance` the on-chain balance read (`none` models a failed read, falling
back to `leg.shares`).  Cancels the initial GTC order, resolves the share
count once, exits early on a dust balance, runs the monitoring loop, and
market-sells the resolved share count when the cut-loss deadline is hit. -/
def adaptiveLegCL (cfg : MMConfig) (filledLegFillPrice : Option ℚ) (leg : Leg)
    (balance : Option ℚ) (obs : List AdObs) (clSell : MarketSellResult) : AdResult :=
  let filledLegPrice := filledLegFillPrice.getD cfg.mmSellPrice
  let floorPrice := adaptiveFloor cfg filledLegPrice
  let leg0 := { leg with orderId := none }
  let sellShares := balance.getD leg.shares
  if sellShares < 1 / 1000 then
    { events := [AdEv.cancelled],
      leg := { leg0 with fillPrice := some cfg.mmSellPrice, filled := true },
      exit := AdExit.alreadyEmpty }
  else
    let r := adaptiveLoop cfg floorPrice sellShares leg0 none obs
    match r.2 with
    | AdLoopEnd.filledDone leg2 =>
      { events := AdEv.cancelled :: r.1, leg := leg2, exit := AdExit.filledDone }
    | AdLoopEnd.clTime =>
      { events := AdEv.cancelled :: r.1 ++ [AdEv.soldMkt sellShares clSell.fillPrice],
        leg := { leg0 with fillPrice := some clSell.fillPrice, filled := true },
        exit := AdExit.clTimeMarketSold }
    | AdLoopEnd.ranOut =>
      { events := AdEv.cancelled :: r.1, leg := leg0, exit := AdExit.observationsExhausted }

-- ── Per-asset dispatcher (mm-bot.js) ────────────────────────────────────────

/-- A market held in the per-asset pending queue. -/
structure QueuedMarket where
  asset : String
  endMs : ℤ
  conditionId : String
  deriving DecidableEq, Repr

/-- JavaScript `Math.round((endMs - now) / 1000)` on integer milliseconds:
floor of `ms/1000 + 1/2`, i.e. half-up rounding toward positive infinity. -/
def mathRoundMsToSec (ms : ℤ) : ℤ := Int.fdiv (2 * ms + 1000) 2000

/-- Model of `Map.set` on the `pendingByAsset` association list: replace in
place when the key exists, append otherwise. -/
def mapSet (l : List (String × QueuedMarket)) (k : String) (v : QueuedMarket) :
    List (String × QueuedMarket) :=
  if l.any (fun p => decide (p.1 = k)) then
    l.map (fun p => if p.1 = k then (k, v) else p)
  else l ++ [(k, v)]

/-- Model of `Map.get`. -/
def mapGet (l : List (String × QueuedMarket)) (k : String) : Option QueuedMarket :=
  (l.find? (fun p => decide (p.1 = k))).map Prod.snd

/-- Model of `Map.delete`. -/
def mapDelete (l : List (String × QueuedMarket)) (k : String) :
    List (String × QueuedMarket) :=
  l.filter (fun p => decide (p.1 ≠ k))

/-- Dispatcher state of `mm-bot.js`: the assets with a live position task and
the per-asset pending queue (`pendingByAsset`). -/
structure DispatcherState where
  activeAssets : List String
  pending : List (String × QueuedMarket)
  deriving DecidableEq, Repr

/-- Model of `handleNewMarket(market)` (mm-bot.js): if a position for the
asset is live, the market (re)places the asset's pending entry and nothing
starts; otherwise a position task starts.  Returns the new state and whether
a position task started. -/
def handleNewMarket (st : DispatcherState) (m : QueuedMarket) : DispatcherState × Bool :=
  if st.activeAssets.contains m.asset then
    ({ st with pending := mapSet st.pending m.asset m }, false)
  else
    ({ st with activeAssets := m.asset :: st.activeAssets }, true)

/-- Model of the tail of `runStrategy(market)` (mm-bot.js) at the moment the
asset's live position terminates: the pending entry (if any) is removed, and
it is started exactly when `Math.round((endMs - now)/1000) > mmCutLossTime`,
discarded otherwise.  Returns the new state and the started market. -/
def onPositionTerminated (st : DispatcherState) (a : String) (now cutLossTime : ℤ) :
    DispatcherState × Option QueuedMarket :=
  let active2 := st.activeAssets.erase a
  match mapGet st.pending a with
  | none => ({ st with activeAssets := active2 }, none)
  | some q =>
    let pend2 := mapDelete st.pending a
    if cutLossTime < mathRoundMsToSec (q.endMs - now) then
      ({ activeAssets := a :: active2, pending := pend2 }, some q)
    else
      ({ activeAssets := active2, pending := pend2 }, none)

-- ── Projections used in theorem statements ──────────────────────────────────

/-- The events of one adaptive-loop pass outcome. -/
def AdStepOut.evs : AdStepOut → List AdEv
  | AdStepOut.exitCl e => e
  | AdStepOut.exitFilled e _ => e
  | AdStepOut.next e _ => e

/-- The yes-leg share count of an entered position, if any. -/
def enteredYesShares : EntryOutcome → Option ℚ
  | EntryOutcome.entered _ _ pos => some pos.yes.shares
  | _ => none

-- ── Concrete inputs used by witnesses and counterexamples ───────────────────

/-- Fee oracle answering nothing. -/
def fdEmpty : FeeData := { maxPriorityFeePerGas := none, maxFeePerGas := none }

/-- Environment whose first attempt hits an execution revert and whose later
attempts succeed. -/
def envRevertThenOk : Nat → AttemptEnv := fun n =>
  if n = 1 then { feeData := fdEmpty, outcome := Except.error (OnchainError.executionReverted none) }
  else { feeData := fdEmpty, outcome := Except.ok 7 }

/-- Environment whose attempts all fail with an execution revert. -/
def envAllRevert : Nat → AttemptEnv := fun _ =>
  { feeData := fdEmpty, outcome := Except.error (OnchainError.executionReverted none) }

/-- Environment whose attempts all succeed. -/
def envAllOk : Nat → AttemptEnv := fun _ =>
  { feeData := fdEmpty, outcome := Except.ok 5 }

/-- Environment whose fee oracle reports a 1000 gwei `maxFeePerGas`. -/
def envHighOracle : Nat → AttemptEnv := fun _ =>
  { feeData := { maxPriorityFeePerGas := none, maxFeePerGas := some 1000000000000 },
    outcome := Except.ok 1 }

/-- Configuration with `mm_trade_size = 5`, `mm_sell_price = 0.60`,
`mm_cut_loss_time = 60`, `mm_adaptive_min_combined = 1.20` (the defaults the
specification quotes), live mode. -/
def cfg5 : MMConfig :=
  { dryRun := false, mmTradeSize := 5, mmSellPrice := 6 / 10, mmCutLossTime := 60,
    mmAdaptiveCL := true, mmAdaptiveMinCombined := 12 / 10, mmAdaptiveMonitorSec := 5,
    mmRecoveryBuy := false }

/-- Configuration whose `mm_sell_price` (0.50) lies below the adaptive floor
reachable with `mm_adaptive_min_combined = 1.20`. -/
def cfgLowSell : MMConfig :=
  { dryRun := false, mmTradeSize := 5, mmSellPrice := 1 / 2, mmCutLossTime := 60,
    mmAdaptiveCL := true, mmAdaptiveMinCombined := 12 / 10, mmAdaptiveMonitorSec := 5,
    mmRecoveryBuy := false }

/-- A concrete market. -/
def mktW : MarketInfo :=
  { asset := ("btc"), conditionId := ("0xc1"), question := ("q"), endMs := 1000000,
    yesTokenId := ("Y"), noTokenId := ("N"), negRisk := false, tickSize := 1 / 100 }

/-- Entry environment with ample balance, current approvals and two
successful placements. -/
def entryEnvOk : EntryEnv :=
  { balance := 100, chain := { usdcAllowanceSufficient := true, exchangeApproved := true },
    yesSell := { success := true, orderId := some ("y1") },
    noSell := { success := true, orderId := some ("n1") } }

/-- Entry environment with ample balance, current approvals and two failed
placements. -/
def entryEnvFailedSells : EntryEnv :=
  { balance := 100, chain := { usdcAllowanceSufficient := true, exchangeApproved := true },
    yesSell := { success := false, orderId := none },
    noSell := { success := false, orderId := none } }

/-- The position `executeMMStrategyEntry cfg5 mktW entryEnvFailedSells`
builds. -/
def posFailedSells : Position :=
  { asset := ("btc"), conditionId := ("0xc1"), endMs := 1000000, tickSize := 1 / 100,
    negRisk := false, status := ("monitoring"),
    yes := { tokenId := ("Y"), shares := 10, entryPrice := 1 / 2, entryCost := 5,
             orderId := none, filled := true, fillPrice := none },
    no := { tokenId := ("N"), shares := 10, entryPrice := 1 / 2, entryCost := 5,
            orderId := none, filled := true, fillPrice := none } }

/-- The position `executeMMStrategyEntry cfg5 mktW entryEnvOk` builds. -/
def posEnteredOk : Position :=
  { asset := ("btc"), conditionId := ("0xc1"), endMs := 1000000, tickSize := 1 / 100,
    negRisk := false, status := ("monitoring"),
    yes := { tokenId := ("Y"), shares := 10, entryPrice := 1 / 2, entryCost := 5,
             orderId := some ("y1"), filled := false, fillPrice := none },
    no := { tokenId := ("N"), shares := 10, entryPrice := 1 / 2, entryCost := 5,
            orderId := some ("n1"), filled := false, fillPrice := none } }

/-- A monitoring-iteration environment (immaterial to the C9 scenario). -/
def monEnvAny : MonitorEnv :=
  { yesOrderFilled := false, noOrderFilled := false, yesSimHit := none, noSimHit := none,
    yesBalance := none, noBalance := none, unfilledSell := { success := true, fillPrice := 0 } }

/-- An unfilled leg with 10 shares. -/
def legW : Leg :=
  { tokenId := ("N"), shares := 10, entryPrice := 1 / 2, entryCost := 5,
    orderId := some ("n1"), filled := false, fillPrice := none }

/-- One adaptive observation: plenty of lifetime, no fill, midpoint 0.70,
placement succeeds. -/
def obsMid70 : AdObs :=
  { msLeft := 1000000, fillQuery := false, simHit := none, mid := 7 / 10,
    placeOk := true, placeOrderId := ("o1") }

/-- A market-sell result at price 0.34. -/
def sell34 : MarketSellResult := { success := true, fillPrice := 34 / 100 }

/-- A queued market for the dispatcher scenarios. -/
def qmW : QueuedMarket := { asset := ("btc"), endMs := 500000, conditionId := ("0xq") }

/-- A dispatcher state with a live btc position and no pending entries. -/
def dstBusy : DispatcherState := { activeAssets := [("btc")], pending := [] }

-- ════════════════════════════════════════════════════════════════════════════
-- Theorems
-- ════════════════════════════════════════════════════════════════════════════

-- ── Helper lemmas on `splitPosition` ────────────────────────────────────────

lemma except_isOk_ok {ε α : Type} (a : α) : (Except.ok a : Except ε α).isOk = true := rfl

lemma except_isOk_error {ε α : Type} (e : ε) : (Except.error e : Except ε α).isOk = false := rfl

lemma splitPosition_ok_val {d : Bool} {c : ChainApprovalState} {cid : String} {a v : ℚ}
    (h : (splitPosition d c cid a).2 = Except.ok v) : v = a := by
  unfold splitPosition at h
  by_cases hlt : a < MIN_SHARES_PER_SIDE
  · rw [if_pos hlt] at h
    simp at h
  · rw [if_neg hlt] at h
    cases d
    · simp at h
      exact h.symm
    · simp at h
      exact h.symm

lemma splitPosition_ok_not_lt {d : Bool} {c : ChainApprovalState} {cid : String} {a v : ℚ}
    (h : (splitPosition d c cid a).2 = Except.ok v) : ¬ a < MIN_SHARES_PER_SIDE := by
  intro hlt
  unfold splitPosition at h
  rw [if_pos hlt] at h
  exact absurd h (by simp)

lemma splitPosition_live_calls {c : ChainApprovalState} {cid : String} {a : ℚ}
    (h : ¬ a < MIN_SHARES_PER_SIDE) :
    SafeCallKind.splitCall a ∈ (splitPosition false c cid a).1 := by
  unfold splitPosition
  rw [if_neg h]
  simp

/-- Claim C5: `splitPosition` rejects exactly when `collateral_amount` is
below `MIN_SHARES_PER_SIDE` (2.5) — the source compares the *total* amount
against the per-side minimum — and a rejected call emits no Safe call. -/
theorem c5_split_min_check (d : Bool) (c : ChainApprovalState) (cid : String) (a : ℚ) :
    ((splitPosition d c cid a).2.isOk = false ↔ a < MIN_SHARES_PER_SIDE)
    ∧ (a < MIN_SHARES_PER_SIDE → (splitPosition d c cid a).1 = []) := by
  unfold splitPosition
  by_cases h : a < MIN_SHARES_PER_SIDE
  · rw [if_pos h]
    simp [h, except_isOk_error]
  · rw [if_neg h]
    cases d <;> simp [h, except_isOk_ok]

/-- Witness for C5 at `collateral_amount = 2`: the call is rejected and
emits no Safe call. -/
theorem c5_split_min_check_witness :
    (splitPosition true ⟨true, true⟩ ("w") 2).1 = []
    ∧ (splitPosition true ⟨true, true⟩ ("w") 2).2.isOk = false :=
  ⟨(c5_split_min_check true ⟨true, true⟩ ("w") 2).2 (by norm_num [MIN_SHARES_PER_SIDE]),
   ((c5_split_min_check true ⟨true, true⟩ ("w") 2).1).mpr (by norm_num [MIN_SHARES_PER_SIDE])⟩

/-- Counterexample for C5 as stated: `collateral_amount = 3` is below
`2 · MIN_SHARES_PER_SIDE = 5` and yet the minimum check passes (the code
rejects only below 2.5). -/
theorem c5_counterexample :
    (3 : ℚ) < 2 * MIN_SHARES_PER_SIDE
    ∧ (splitPosition false ⟨true, true⟩ ("c") 3).2.isOk = true := by
  constructor
  · norm_num [MIN_SHARES_PER_SIDE]
  · norm_num [splitPosition, MIN_SHARES_PER_SIDE, except_isOk_ok]

-- ── C8: the order-status fill check ─────────────────────────────────────────

/-- Claim C8: for a real (non-simulated) order id, `isOrderFilled` reports
filled exactly when the queried order exists and its status is MATCHED or
its matched size is at least 99 percent of the expected size; a null id, a
query error or a missing order all report not filled. -/
theorem c8_isOrderFilled (oid : String) (shares : ℚ) (q : OrderQueryResult)
    (hsim : oid.startsWith ("sim-") = false) :
    (isOrderFilled (some oid) shares q = true ↔
      ∃ st m, q = OrderQueryResult.found st m ∧
        (st = ("MATCHED") ∨ shares * (99 / 100) ≤ m))
    ∧ isOrderFilled none shares q = false
    ∧ isOrderFilled (some oid) shares OrderQueryResult.queryError = false
    ∧ isOrderFilled (some oid) shares OrderQueryResult.missing = false := by
  refine ⟨?_, rfl, by simp [isOrderFilled, hsim], by simp [isOrderFilled, hsim]⟩
  cases q with
  | queryError => simp [isOrderFilled, hsim]
  | missing => simp [isOrderFilled, hsim]
  | found st m =>
    by_cases hst : st = ("MATCHED")
    · subst hst
      constructor
      · intro _
        exact ⟨_, _, rfl, Or.inl rfl⟩
      · intro _
        simp [isOrderFilled, hsim]
    · simp only [isOrderFilled, hsim, Bool.false_eq_true, if_false, if_neg hst,
        decide_eq_true_eq]
      constructor
      · intro hle
        exact ⟨st, m, rfl, Or.inr hle⟩
      · rintro ⟨st2, m2, heq, h | h⟩
        · cases heq
          exact absurd h hst
        · cases heq
          exact h

/-- Witness for C8: the order id ("ab") is real; an order with status LIVE
and 9.9 of 10 shares matched counts as filled. -/
theorem c8_isOrderFilled_witness :
    isOrderFilled (some ("ab")) 10 (OrderQueryResult.found ("LIVE") (99 / 10)) = true :=
  ((c8_isOrderFilled ("ab") 10 (OrderQueryResult.found ("LIVE") (99 / 10)) rfl).1).mpr
    ⟨("LIVE"), 99 / 10, rfl, Or.inr (by norm_num)⟩

-- ── Helper lemmas on the executor ───────────────────────────────────────────

lemma gasTip_ge (fd : FeeData) : MIN_TIP_WEI ≤ gasTip fd := by
  rcases hfd : fd.maxPriorityFeePerGas with _ | t
  · simp [gasTip, hfd]
  · simp only [gasTip, hfd]
    by_cases h : MIN_TIP_WEI < t
    · rw [if_pos h]
      exact le_of_lt h
    · rw [if_neg h]

lemma gasTip_none {fd : FeeData} (h : fd.maxPriorityFeePerGas = none) :
    gasTip fd = MIN_TIP_WEI := by
  simp [gasTip, h]

lemma gasTip_low {fd : FeeData} {t : ℤ} (h : fd.maxPriorityFeePerGas = some t)
    (hle : t ≤ MIN_TIP_WEI) : gasTip fd = MIN_TIP_WEI := by
  simp only [gasTip, h]
  rw [if_neg (not_lt.mpr hle)]

lemma gasFeeCap_none {fd : FeeData} (h : fd.maxFeePerGas = none) :
    gasFeeCap fd = DEFAULT_FEE_CAP_WEI := by
  unfold gasFeeCap
  rw [h]
  rfl

lemma gasFeeCap_some {fd : FeeData} {v : ℤ} (h : fd.maxFeePerGas = some v) :
    gasFeeCap fd = v := by
  unfold gasFeeCap
  rw [h]
  rfl

lemma submitted_mem_doExecGo (env : Nat → AttemptEnv) :
    ∀ (rem a0 : Nat) {a : Nat} {tip cap : ℤ},
      ExecEv.submitted a tip cap ∈ (doExecGo env a0 rem).1 →
      tip = gasTip (env a).feeData ∧ cap = gasFeeCap (env a).feeData := by
  intro rem
  induction rem with
  | zero =>
    intro a0 a tip cap h
    simp [doExecGo] at h
  | succ n ih =>
    intro a0 a tip cap h
    rw [doExecGo] at h
    cases hout : (env a0).outcome with
    | ok r =>
      rw [hout] at h
      simp at h
      rcases h with ⟨rfl, rfl, rfl⟩
      exact ⟨rfl, rfl⟩
    | error err =>
      rw [hout] at h
      try dsimp only at h
      by_cases hn : n = 0
      · rw [if_pos hn] at h
        simp at h
        rcases h with ⟨rfl, rfl, rfl⟩
        exact ⟨rfl, rfl⟩
      · rw [if_neg hn] at h
        simp at h
        rcases h with ⟨rfl, rfl, rfl⟩ | h
        · exact ⟨rfl, rfl⟩
        · exact ih (a0 + 1) h

/-- Claim C6 (amended part): every transaction submitted by any
`_doExecSafeCall` run carries a priority fee of at least 30 gwei — the floor
is used when the oracle's tip is absent or below it — while the submitted
`maxFeePerGas` simply echoes the oracle's value when present; the 500 gwei
figure is only the default taken when the oracle reports none. -/
theorem c6_fee_floor (env : Nat → AttemptEnv) (a : Nat) (tip cap : ℤ)
    (h : ExecEv.submitted a tip cap ∈ (doExecSafeCall env).1) :
    MIN_TIP_WEI ≤ tip
    ∧ ((env a).feeData.maxPriorityFeePerGas = none → tip = MIN_TIP_WEI)
    ∧ (∀ t, (env a).feeData.maxPriorityFeePerGas = some t → t ≤ MIN_TIP_WEI →
        tip = MIN_TIP_WEI)
    ∧ ((env a).feeData.maxFeePerGas = none → cap = DEFAULT_FEE_CAP_WEI)
    ∧ (∀ v, (env a).feeData.maxFeePerGas = some v → cap = v) := by
  obtain ⟨htip, hcap⟩ := submitted_mem_doExecGo env MAX_RETRIES 1 h
  subst htip
  subst hcap
  refine ⟨gasTip_ge _, ?_, ?_, ?_, ?_⟩
  · intro hnone
    exact gasTip_none hnone
  · intro t hsome hle
    exact gasTip_low hsome hle
  · intro hnone
    exact gasFeeCap_none hnone
  · intro v hsome
    exact gasFeeCap_some hsome

/-- Witness for C6 (amended): in the high-oracle environment the submitted
transaction carries the 30 gwei floor tip and echoes the oracle's 1000 gwei
`maxFeePerGas`. -/
theorem c6_fee_floor_witness :
    MIN_TIP_WEI ≤ MIN_TIP_WEI ∧ (1000000000000 : ℤ) = 1000000000000 :=
  ⟨(c6_fee_floor envHighOracle 1 MIN_TIP_WEI 1000000000000 (by decide)).1,
   (c6_fee_floor envHighOracle 1 MIN_TIP_WEI 1000000000000 (by decide)).2.2.2.2
     1000000000000 rfl⟩

/-- Counterexample for C6 as stated: with an oracle reporting a 1000 gwei
`maxFeePerGas`, the submitted transaction's `maxFeePerGas` is 1000 gwei,
exceeding the claimed 500 gwei cap. -/
theorem c6_feecap_counterexample :
    ExecEv.submitted 1 MIN_TIP_WEI 1000000000000 ∈ (doExecSafeCall envHighOracle).1
    ∧ DEFAULT_FEE_CAP_WEI < 1000000000000 := by
  exact ⟨by decide, by decide⟩

-- ── C2: retry classification of `_doExecSafeCall` ───────────────────────────

/-- Claim C2 (amended): the executor retries every failed attempt regardless
of the error's class, up to three attempts with a 3-second back-off between
attempts; it returns the first success, and only after the third failure
does it surface the one-line parsed message of the last error. -/
theorem c2_retry_behavior (env : Nat → AttemptEnv) :
    (∀ r, (env 1).outcome = Except.ok r →
      doExecSafeCall env =
        ([ExecEv.nonceRead 1,
          ExecEv.submitted 1 (gasTip (env 1).feeData) (gasFeeCap (env 1).feeData)],
         Except.ok r))
    ∧ (∀ e1 r, (env 1).outcome = Except.error e1 → (env 2).outcome = Except.ok r →
      doExecSafeCall env =
        ([ExecEv.nonceRead 1,
          ExecEv.submitted 1 (gasTip (env 1).feeData) (gasFeeCap (env 1).feeData),
          ExecEv.slept RETRY_DELAY,
          ExecEv.nonceRead 2,
          ExecEv.submitted 2 (gasTip (env 2).feeData) (gasFeeCap (env 2).feeData)],
         Except.ok r))
    ∧ (∀ e1 e2 r, (env 1).outcome = Except.error e1 → (env 2).outcome = Except.error e2 →
        (env 3).outcome = Except.ok r →
      doExecSafeCall env =
        ([ExecEv.nonceRead 1,
          ExecEv.submitted 1 (gasTip (env 1).feeData) (gasFeeCap (env 1).feeData),
          ExecEv.slept RETRY_DELAY,
          ExecEv.nonceRead 2,
          ExecEv.submitted 2 (gasTip (env 2).feeData) (gasFeeCap (env 2).feeData),
          ExecEv.slept RETRY_DELAY,
          ExecEv.nonceRead 3,
          ExecEv.submitted 3 (gasTip (env 3).feeData) (gasFeeCap (env 3).feeData)],
         Except.ok r))
    ∧ (∀ e1 e2 e3, (env 1).outcome = Except.error e1 → (env 2).outcome = Except.error e2 →
        (env 3).outcome = Except.error e3 →
      doExecSafeCall env =
        ([ExecEv.nonceRead 1,
          ExecEv.submitted 1 (gasTip (env 1).feeData) (gasFeeCap (env 1).feeData),
          ExecEv.slept RETRY_DELAY,
          ExecEv.nonceRead 2,
          ExecEv.submitted 2 (gasTip (env 2).feeData) (gasFeeCap (env 2).feeData),
          ExecEv.slept RETRY_DELAY,
          ExecEv.nonceRead 3,
          ExecEv.submitted 3 (gasTip (env 3).feeData) (gasFeeCap (env 3).feeData)],
         Except.error (parseOnchainError e3))) := by
  refine ⟨?_, ?_, ?_, ?_⟩
  · intro r h1
    simp [doExecSafeCall, MAX_RETRIES, doExecGo, h1]
  · intro e1 r h1 h2
    simp [doExecSafeCall, MAX_RETRIES, doExecGo, h1, h2]
  · intro e1 e2 r h1 h2 h3
    simp [doExecSafeCall, MAX_RETRIES, doExecGo, h1, h2, h3]
  · intro e1 e2 e3 h1 h2 h3
    simp [doExecSafeCall, MAX_RETRIES, doExecGo, h1, h2, h3]

/-- Witness for C2 (amended) on the all-reverts environment: three attempts,
two back-off sleeps, and the parsed revert message surfaced at the end. -/
theorem c2_retry_behavior_witness :
    doExecSafeCall envAllRevert =
      ([ExecEv.nonceRead 1,
        ExecEv.submitted 1 (gasTip (envAllRevert 1).feeData) (gasFeeCap (envAllRevert 1).feeData),
        ExecEv.slept RETRY_DELAY,
        ExecEv.nonceRead 2,
        ExecEv.submitted 2 (gasTip (envAllRevert 2).feeData) (gasFeeCap (envAllRevert 2).feeData),
        ExecEv.slept RETRY_DELAY,
        ExecEv.nonceRead 3,
        ExecEv.submitted 3 (gasTip (envAllRevert 3).feeData) (gasFeeCap (envAllRevert 3).feeData)],
       Except.error (parseOnchainError (OnchainError.executionReverted none))) :=
  (c2_retry_behavior envAllRevert).2.2.2 (OnchainError.executionReverted none)
    (OnchainError.executionReverted none) (OnchainError.executionReverted none) rfl rfl rfl

/-- Counterexample for C2 as stated: the first attempt fails with the
terminal error `execution reverted`, yet the executor sleeps 3 seconds and
retries, and the call ultimately succeeds on the second attempt instead of
surfacing an immediate failure. -/
theorem c2_retry_counterexample :
    isTerminalPerSpec (OnchainError.executionReverted none) = true
    ∧ (envRevertThenOk 1).outcome = Except.error (OnchainError.executionReverted none)
    ∧ ExecEv.slept RETRY_DELAY ∈ (doExecSafeCall envRevertThenOk).1
    ∧ (doExecSafeCall envRevertThenOk).2 = Except.ok 7 := by
  refine ⟨rfl, rfl, by decide, rfl⟩

-- ── Helper lemmas on the adaptive controller ────────────────────────────────

lemma adaptiveIter_posted {cfg : MMConfig} {floorPrice sellShares : ℚ} {leg : Leg}
    {active : Option (String × ℚ)} {o : AdObs} {p s : ℚ}
    (h : AdEv.posted p s ∈ (adaptiveIter cfg floorPrice sellShares leg active o).evs) :
    floorPrice ≤ o.mid ∧ p = min o.mid cfg.mmSellPrice ∧ s = sellShares := by
  unfold adaptiveIter at h
  by_cases hcl : o.msLeft ≤ cfg.mmCutLossTime * 1000
  · rw [if_pos hcl] at h
    by_cases hact : active.isSome <;> simp [AdStepOut.evs, hact] at h
  · rw [if_neg hcl] at h
    try dsimp only at h
    rcases hfill : (match active with
      | some al =>
        if cfg.dryRun then o.simHit
        else if o.fillQuery then some al.2 else none
      | none => (none : Option ℚ)) with _ | fp
    · rw [hfill] at h
      try dsimp only at h
      by_cases hmid : o.mid ≤ 0
      · rw [if_pos hmid] at h
        simp [AdStepOut.evs] at h
      · rw [if_neg hmid] at h
        try dsimp only at h
        rcases active with _ | al
        · dsimp only at h
          by_cases hpl : floorPrice ≤ o.mid
          · simp only [Option.isNone_none, true_and, if_pos hpl] at h
            by_cases hok : o.placeOk
            · rw [if_pos hok] at h
              simp [AdStepOut.evs] at h
              exact ⟨hpl, h.1, h.2⟩
            · rw [if_neg hok] at h
              simp [AdStepOut.evs] at h
              exact ⟨hpl, h.1, h.2⟩
          · simp only [Option.isNone_none, true_and, if_neg hpl] at h
            simp [AdStepOut.evs] at h
        · dsimp only at h
          by_cases hc1 : o.mid < floorPrice ∨ o.mid < al.2 * (95 / 100)
          · rw [if_pos hc1] at h
            try dsimp only at h
            by_cases hpl : floorPrice ≤ o.mid
            · simp only [Option.isNone_none, true_and, if_pos hpl] at h
              by_cases hok : o.placeOk
              · rw [if_pos hok] at h
                simp [AdStepOut.evs] at h
                exact ⟨hpl, h.1, h.2⟩
              · rw [if_neg hok] at h
                simp [AdStepOut.evs] at h
                exact ⟨hpl, h.1, h.2⟩
            · simp only [Option.isNone_none, true_and, if_neg hpl] at h
              simp [AdStepOut.evs] at h
          · rw [if_neg hc1] at h
            by_cases hc2 : al.2 * (102 / 100) < min o.mid cfg.mmSellPrice
            · rw [if_pos hc2] at h
              try dsimp only at h
              by_cases hpl : floorPrice ≤ o.mid
              · simp only [Option.isNone_none, true_and, if_pos hpl] at h
                by_cases hok : o.placeOk
                · rw [if_pos hok] at h
                  simp [AdStepOut.evs] at h
                  exact ⟨hpl, h.1, h.2⟩
                · rw [if_neg hok] at h
                  simp [AdStepOut.evs] at h
                  exact ⟨hpl, h.1, h.2⟩
              · simp only [Option.isNone_none, true_and, if_neg hpl] at h
                simp [AdStepOut.evs] at h
            · rw [if_neg hc2] at h
              try dsimp only at h
              simp [AdStepOut.evs] at h
    · rw [hfill] at h
      try dsimp only at h
      simp [AdStepOut.evs] at h

lemma adaptiveIter_no_sold {cfg : MMConfig} {floorPrice sellShares : ℚ} {leg : Leg}
    {active : Option (String × ℚ)} {o : AdObs} {s p : ℚ} :
    AdEv.soldMkt s p ∉ (adaptiveIter cfg floorPrice sellShares leg active o).evs := by
  intro h
  unfold adaptiveIter at h
  by_cases hcl : o.msLeft ≤ cfg.mmCutLossTime * 1000
  · rw [if_pos hcl] at h
    by_cases hact : active.isSome <;> simp [AdStepOut.evs, hact] at h
  · rw [if_neg hcl] at h
    try dsimp only at h
    rcases hfill : (match active with
      | some al =>
        if cfg.dryRun then o.simHit
        else if o.fillQuery then some al.2 else none
      | none => (none : Option ℚ)) with _ | fp
    · rw [hfill] at h
      try dsimp only at h
      by_cases hmid : o.mid ≤ 0
      · rw [if_pos hmid] at h
        simp [AdStepOut.evs] at h
      · rw [if_neg hmid] at h
        try dsimp only at h
        rcases active with _ | al
        · dsimp only at h
          by_cases hpl : floorPrice ≤ o.mid
          · simp only [Option.isNone_none, true_and, if_pos hpl] at h
            by_cases hok : o.placeOk
            · rw [if_pos hok] at h
              simp [AdStepOut.evs] at h
            · rw [if_neg hok] at h
              simp [AdStepOut.evs] at h
          · simp only [Option.isNone_none, true_and, if_neg hpl] at h
            simp [AdStepOut.evs] at h
        · dsimp only at h
          by_cases hc1 : o.mid < floorPrice ∨ o.mid < al.2 * (95 / 100)
          · rw [if_pos hc1] at h
            try dsimp only at h
            by_cases hpl : floorPrice ≤ o.mid
            · simp only [Option.isNone_none, true_and, if_pos hpl] at h
              by_cases hok : o.placeOk
              · rw [if_pos hok] at h
                simp [AdStepOut.evs] at h
              · rw [if_neg hok] at h
                simp [AdStepOut.evs] at h
            · simp only [Option.isNone_none, true_and, if_neg hpl] at h
              simp [AdStepOut.evs] at h
          · rw [if_neg hc1] at h
            by_cases hc2 : al.2 * (102 / 100) < min o.mid cfg.mmSellPrice
            · rw [if_pos hc2] at h
              try dsimp only at h
              by_cases hpl : floorPrice ≤ o.mid
              · simp only [Option.isNone_none, true_and, if_pos hpl] at h
                by_cases hok : o.placeOk
                · rw [if_pos hok] at h
                  simp [AdStepOut.evs] at h
                · rw [if_neg hok] at h
                  simp [AdStepOut.evs] at h
              · simp only [Option.isNone_none, true_and, if_neg hpl] at h
                simp [AdStepOut.evs] at h
            · rw [if_neg hc2] at h
              try dsimp only at h
              simp [AdStepOut.evs] at h
    · rw [hfill] at h
      try dsimp only at h
      simp [AdStepOut.evs] at h

lemma adaptiveLoop_posted {cfg : MMConfig} {floorPrice sellShares : ℚ} {leg : Leg}
    {p s : ℚ} :
    ∀ {obs : List AdObs} {active : Option (String × ℚ)},
      AdEv.posted p s ∈ (adaptiveLoop cfg floorPrice sellShares leg active obs).1 →
      (∃ m : ℚ, floorPrice ≤ m ∧ p = min m cfg.mmSellPrice) ∧ s = sellShares := by
  intro obs
  induction obs with
  | nil =>
    intro active h
    simp [adaptiveLoop] at h
  | cons o rest ih =>
    intro active h
    rw [adaptiveLoop] at h
    rcases hit : adaptiveIter cfg floorPrice sellShares leg active o with
      evs | ⟨evs, leg2⟩ | ⟨evs, active2⟩
    · rw [hit] at h
      have hm2 : AdEv.posted p s ∈ (adaptiveIter cfg floorPrice sellShares leg active o).evs := by
        rw [hit]
        exact h
      obtain ⟨h1, h2, h3⟩ := adaptiveIter_posted hm2
      exact ⟨⟨o.mid, h1, h2⟩, h3⟩
    · rw [hit] at h
      have hm2 : AdEv.posted p s ∈ (adaptiveIter cfg floorPrice sellShares leg active o).evs := by
        rw [hit]
        exact h
      obtain ⟨h1, h2, h3⟩ := adaptiveIter_posted hm2
      exact ⟨⟨o.mid, h1, h2⟩, h3⟩
    · rw [hit] at h
      rcases List.mem_append.mp h with h2 | h2
      · have hm2 : AdEv.posted p s ∈ (adaptiveIter cfg floorPrice sellShares leg active o).evs := by
          rw [hit]
          exact h2
        obtain ⟨h1, h2, h3⟩ := adaptiveIter_posted hm2
        exact ⟨⟨o.mid, h1, h2⟩, h3⟩
      · exact ih h2

lemma adaptiveLoop_no_sold {cfg : MMConfig} {floorPrice sellShares : ℚ} {leg : Leg}
    {s p : ℚ} :
    ∀ {obs : List AdObs} {active : Option (String × ℚ)},
      AdEv.soldMkt s p ∉ (adaptiveLoop cfg floorPrice sellShares leg active obs).1 := by
  intro obs
  induction obs with
  | nil =>
    intro active h
    simp [adaptiveLoop] at h
  | cons o rest ih =>
    intro active h
    rw [adaptiveLoop] at h
    rcases hit : adaptiveIter cfg floorPrice sellShares leg active o with
      evs | ⟨evs, leg2⟩ | ⟨evs, active2⟩
    · rw [hit] at h
      have hm2 : AdEv.soldMkt s p ∈ (adaptiveIter cfg floorPrice sellShares leg active o).evs := by
        rw [hit]
        exact h
      exact adaptiveIter_no_sold hm2
    · rw [hit] at h
      have hm2 : AdEv.soldMkt s p ∈ (adaptiveIter cfg floorPrice sellShares leg active o).evs := by
        rw [hit]
        exact h
      exact adaptiveIter_no_sold hm2
    · rw [hit] at h
      rcases List.mem_append.mp h with h2 | h2
      · have hm2 : AdEv.soldMkt s p ∈ (adaptiveIter cfg floorPrice sellShares leg active o).evs := by
          rw [hit]
          exact h2
        exact adaptiveIter_no_sold hm2
      · exact ih h2

-- ── C4: the adaptive profit floor ───────────────────────────────────────────

/-- Claim C4 (amended): every limit the adaptive controller posts has price
`min(mid, mm_sell_price)` for a midpoint at or above the floor, hence at
least `min(floor, mm_sell_price)` and at most `mm_sell_price`; the posted
price can fall below the floor exactly when `mm_sell_price` does. -/
theorem c4_adaptive_floor (cfg : MMConfig) (pf : Option ℚ) (leg : Leg)
    (balance : Option ℚ) (obs : List AdObs) (clSell : MarketSellResult) (p s : ℚ)
    (h : AdEv.posted p s ∈ (adaptiveLegCL cfg pf leg balance obs clSell).events) :
    min (adaptiveFloor cfg (pf.getD cfg.mmSellPrice)) cfg.mmSellPrice ≤ p
    ∧ p ≤ cfg.mmSellPrice := by
  unfold adaptiveLegCL at h
  by_cases hdust : balance.getD leg.shares < 1 / 1000
  · rw [if_pos hdust] at h
    simp at h
  · rw [if_neg hdust] at h
    try dsimp only at h
    rcases hend : (adaptiveLoop cfg (adaptiveFloor cfg (pf.getD cfg.mmSellPrice))
        (balance.getD leg.shares) { leg with orderId := none } none obs).2 with leg2 | _ | _
    · rw [hend] at h
      simp at h
      obtain ⟨⟨m, hm, rfl⟩, -⟩ := adaptiveLoop_posted h
      exact ⟨min_le_min hm (le_refl _), min_le_right _ _⟩
    · rw [hend] at h
      simp at h
      obtain ⟨⟨m, hm, rfl⟩, -⟩ := adaptiveLoop_posted h
      exact ⟨min_le_min hm (le_refl _), min_le_right _ _⟩
    · rw [hend] at h
      simp at h
      obtain ⟨⟨m, hm, rfl⟩, -⟩ := adaptiveLoop_posted h
      exact ⟨min_le_min hm (le_refl _), min_le_right _ _⟩

/-- Witness for C4 (amended): with the default configuration (floor 0.60 =
sell price 0.60) the limit posted at midpoint 0.70 is 0.60, within the
bounds. -/
theorem c4_adaptive_floor_witness :
    min (adaptiveFloor cfg5 ((some (6 / 10 : ℚ)).getD cfg5.mmSellPrice)) cfg5.mmSellPrice
        ≤ (6 / 10 : ℚ)
    ∧ (6 / 10 : ℚ) ≤ cfg5.mmSellPrice :=
  c4_adaptive_floor cfg5 (some (6 / 10)) legW (some 10) [obsMid70] sell34 (6 / 10) 10
    (by norm_num [adaptiveLegCL, adaptiveLoop, adaptiveIter, adaptiveFloor, AdStepOut.evs,
      cfg5, legW, obsMid70, min_def])

/-- Counterexample for C4 as stated: with `mm_sell_price = 0.50`,
`mm_adaptive_min_combined = 1.20` and the filled leg at 0.60, the floor is
0.60, yet at midpoint 0.70 the controller posts a limit at
`min(0.70, 0.50) = 0.50`, strictly below the floor. -/
theorem c4_floor_counterexample :
    AdEv.posted (1 / 2) 10 ∈
      (adaptiveLegCL cfgLowSell (some (6 / 10)) legW (some 10) [obsMid70] sell34).events
    ∧ (1 / 2 : ℚ) < adaptiveFloor cfgLowSell (6 / 10) := by
  constructor
  · norm_num [adaptiveLegCL, adaptiveLoop, adaptiveIter, adaptiveFloor, AdStepOut.evs,
      cfgLowSell, legW, obsMid70, min_def, max_def]
  · norm_num [adaptiveFloor, cfgLowSell, max_def]

-- ── C10: balance-read failure falls back to in-memory shares ────────────────

/-- Claim C10: when the on-chain token-balance read fails (returns null),
both the legacy one-leg cut and the adaptive controller fall back to the
in-memory `pos.shares` count and proceed with the sell: the legacy path
market-sells exactly `leg.shares`, and the adaptive run does not take the
dust-exit, posts every limit for `leg.shares`, and market-sells
`leg.shares` at the deadline. -/
theorem c10_null_balance_fallback (cfg : MMConfig) (leg : Leg)
    (sellRes clSell : MarketSellResult) (pf : Option ℚ) (obs : List AdObs)
    (h : ¬ leg.shares < 1 / 1000) :
    (cutLossOneLegFilled cfg leg none sellRes).2 =
      [MonEffect.cancelledOrder leg.orderId, MonEffect.marketSold leg.tokenId leg.shares]
    ∧ (adaptiveLegCL cfg pf leg none obs clSell).exit ≠ AdExit.alreadyEmpty
    ∧ (∀ s p : ℚ, AdEv.soldMkt s p ∈ (adaptiveLegCL cfg pf leg none obs clSell).events →
        s = leg.shares)
    ∧ (∀ p s : ℚ, AdEv.posted p s ∈ (adaptiveLegCL cfg pf leg none obs clSell).events →
        s = leg.shares) := by
  have hget : (none : Option ℚ).getD leg.shares = leg.shares := rfl
  refine ⟨?_, ?_, ?_, ?_⟩
  · unfold cutLossOneLegFilled
    rw [hget, if_neg h]
  · unfold adaptiveLegCL
    rw [hget, if_neg h]
    dsimp only
    rcases hend : (adaptiveLoop cfg (adaptiveFloor cfg (pf.getD cfg.mmSellPrice))
        leg.shares { leg with orderId := none } none obs).2 with leg2 | _ | _ <;>
      simp [hend]
  · intro s p hmem
    unfold adaptiveLegCL at hmem
    rw [hget, if_neg h] at hmem
    dsimp only at hmem
    rcases hend : (adaptiveLoop cfg (adaptiveFloor cfg (pf.getD cfg.mmSellPrice))
        leg.shares { leg with orderId := none } none obs).2 with leg2 | _ | _
    · rw [hend] at hmem
      simp at hmem
      exact absurd hmem adaptiveLoop_no_sold
    · rw [hend] at hmem
      simp at hmem
      rcases hmem with hmem | ⟨rfl, rfl⟩
      · exact absurd hmem adaptiveLoop_no_sold
      · rfl
    · rw [hend] at hmem
      simp at hmem
      exact absurd hmem adaptiveLoop_no_sold
  · intro p s hmem
    unfold adaptiveLegCL at hmem
    rw [hget, if_neg h] at hmem
    dsimp only at hmem
    rcases hend : (adaptiveLoop cfg (adaptiveFloor cfg (pf.getD cfg.mmSellPrice))
        leg.shares { leg with orderId := none } none obs).2 with leg2 | _ | _
    · rw [hend] at hmem
      simp at hmem
      exact (adaptiveLoop_posted hmem).2
    · rw [hend] at hmem
      simp at hmem
      exact (adaptiveLoop_posted hmem).2
    · rw [hend] at hmem
      simp at hmem
      exact (adaptiveLoop_posted hmem).2

/-- Witness for C10: with a failed balance read, the legacy cut of a 10-share
leg cancels its order and market-sells exactly 10 shares. -/
theorem c10_null_balance_fallback_witness :
    (cutLossOneLegFilled cfg5 legW none sell34).2 =
      [MonEffect.cancelledOrder legW.orderId, MonEffect.marketSold legW.tokenId legW.shares] :=
  (c10_null_balance_fallback cfg5 legW sell34 sell34 (some (6 / 10)) [obsMid70]
    (by norm_num [legW])).1

-- ── Helper lemma on the entry phase ─────────────────────────────────────────

lemma executeMMStrategyEntry_entered {cfg : MMConfig} {mkt : MarketInfo} {env : EntryEnv}
    {calls : List SafeCallKind} {sells : List (String × ℚ × ℚ)} {pos : Position}
    (h : executeMMStrategyEntry cfg mkt env = EntryOutcome.entered calls sells pos) :
    calls = (splitPosition cfg.dryRun env.chain mkt.conditionId (cfg.mmTradeSize * 2)).1
    ∧ (splitPosition cfg.dryRun env.chain mkt.conditionId (cfg.mmTradeSize * 2)).2 =
        Except.ok (cfg.mmTradeSize * 2)
    ∧ sells = [(mkt.yesTokenId, cfg.mmTradeSize * 2, cfg.mmSellPrice),
               (mkt.noTokenId, cfg.mmTradeSize * 2, cfg.mmSellPrice)]
    ∧ pos.status = ("monitoring")
    ∧ pos.yes = { tokenId := mkt.yesTokenId, shares := cfg.mmTradeSize * 2,
                  entryPrice := 1 / 2, entryCost := cfg.mmTradeSize,
                  orderId := env.yesSell.orderId, filled := !env.yesSell.success,
                  fillPrice := none }
    ∧ pos.no = { tokenId := mkt.noTokenId, shares := cfg.mmTradeSize * 2,
                 entryPrice := 1 / 2, entryCost := cfg.mmTradeSize,
                 orderId := env.noSell.orderId, filled := !env.noSell.success,
                 fillPrice := none } := by
  unfold executeMMStrategyEntry at h
  by_cases hbal : cfg.dryRun = false ∧ env.balance < cfg.mmTradeSize * 2
  · rw [if_pos hbal] at h
    cases h
  · rw [if_neg hbal] at h
    rcases hsplit : splitPosition cfg.dryRun env.chain mkt.conditionId (cfg.mmTradeSize * 2)
      with ⟨cs, res⟩
    rw [hsplit] at h
    cases res with
    | error m => cases h
    | ok v =>
      have hv : v = cfg.mmTradeSize * 2 :=
        splitPosition_ok_val (by rw [hsplit])
      subst hv
      cases h
      exact ⟨rfl, rfl, rfl, rfl, rfl, rfl⟩

-- ── C3: split amount and per-leg share count ────────────────────────────────

/-- Claim C3 (amended): for every market the engine enters, it invokes the
split for `2 · mm_trade_size` collateral, and the resulting position records
`2 · mm_trade_size` shares on each leg (the CTF split mints one token pair
per collateral unit); the two GTC limit sells are likewise for
`2 · mm_trade_size` shares per side at `mm_sell_price`, and both legs carry
entry price 0.5. -/
theorem c3_entry_sizes (cfg : MMConfig) (mkt : MarketInfo) (env : EntryEnv)
    (calls : List SafeCallKind) (sells : List (String × ℚ × ℚ)) (pos : Position)
    (h : executeMMStrategyEntry cfg mkt env = EntryOutcome.entered calls sells pos) :
    (cfg.dryRun = false → SafeCallKind.splitCall (cfg.mmTradeSize * 2) ∈ calls)
    ∧ pos.yes.shares = cfg.mmTradeSize * 2
    ∧ pos.no.shares = cfg.mmTradeSize * 2
    ∧ sells = [(mkt.yesTokenId, cfg.mmTradeSize * 2, cfg.mmSellPrice),
               (mkt.noTokenId, cfg.mmTradeSize * 2, cfg.mmSellPrice)]
    ∧ pos.yes.entryPrice = 1 / 2
    ∧ pos.no.entryPrice = 1 / 2
    ∧ (¬ (cfg.mmTradeSize * 2 < 1 / 1000) →
        MonEffect.merged (cfg.mmTradeSize * 2) ∈ (cutLossNeitherFilled cfg pos none none).2) := by
  obtain ⟨hcalls, hok, hsells, -, hyes, hno⟩ := executeMMStrategyEntry_entered h
  refine ⟨?_, by rw [hyes], by rw [hno], hsells, by rw [hyes], by rw [hno], ?_⟩
  · intro hdry
    rw [hcalls]
    have hnlt : ¬ cfg.mmTradeSize * 2 < MIN_SHARES_PER_SIDE := splitPosition_ok_not_lt hok
    rw [hdry] at hok ⊢
    exact splitPosition_live_calls hnlt
  · intro hm
    unfold cutLossNeitherFilled
    rw [hyes, hno]
    dsimp only
    rw [min_self]
    simp only [Option.getD_none]
    rw [if_neg hm]
    simp

/-- Witness for C3 (amended) at `mm_trade_size = 5`: the split call is for
10 USDC and each leg records 10 shares. -/
theorem c3_entry_sizes_witness :
    SafeCallKind.splitCall (cfg5.mmTradeSize * 2) ∈ [SafeCallKind.splitCall 10]
    ∧ posEnteredOk.yes.shares = cfg5.mmTradeSize * 2
    ∧ posEnteredOk.no.shares = cfg5.mmTradeSize * 2
    ∧ MonEffect.merged (cfg5.mmTradeSize * 2) ∈ (cutLossNeitherFilled cfg5 posEnteredOk none none).2 :=
  have h := c3_entry_sizes cfg5 mktW entryEnvOk [SafeCallKind.splitCall 10]
    [(mktW.yesTokenId, 10, cfg5.mmSellPrice), (mktW.noTokenId, 10, cfg5.mmSellPrice)]
    posEnteredOk
    (by norm_num [executeMMStrategyEntry, splitPosition, MIN_SHARES_PER_SIDE, cfg5, mktW,
      entryEnvOk, posEnteredOk])
  ⟨h.1 rfl, h.2.1, h.2.2.1, h.2.2.2.2.2.2 (by norm_num [cfg5])⟩

/-- Counterexample for C3 as stated: with `mm_trade_size = 5` the entered
position records 10 shares on the yes leg, not `mm_trade_size = 5`. -/
theorem c3_shares_counterexample :
    enteredYesShares (executeMMStrategyEntry cfg5 mktW entryEnvOk) = some 10
    ∧ cfg5.mmTradeSize = 5
    ∧ ¬ ((10 : ℚ) = 5) := by
  refine ⟨?_, rfl, by norm_num⟩
  norm_num [executeMMStrategyEntry, splitPosition, MIN_SHARES_PER_SIDE, enteredYesShares,
    cfg5, mktW, entryEnvOk]

-- ── C9: failed initial placements end in `done` with no venue action ────────

/-- Claim C9: when both initial GTC placements fail at entry, the position is
constructed with both legs `filled = true` and `fillPrice = null`, and the
first monitoring iteration (with any remaining lifetime) transitions it to
`done` with no order-status query consulted, no cancel, no merge and no
sale. -/
theorem c9_failed_placements (cfg : MMConfig) (mkt : MarketInfo) (env : EntryEnv)
    (ms : ℤ) (menv : MonitorEnv) (calls : List SafeCallKind)
    (sells : List (String × ℚ × ℚ)) (pos : Position)
    (hEnt : executeMMStrategyEntry cfg mkt env = EntryOutcome.entered calls sells pos)
    (hYes : env.yesSell.success = false) (hNo : env.noSell.success = false)
    (hms : 0 < ms) :
    pos.yes.filled = true ∧ pos.yes.fillPrice = none
    ∧ pos.no.filled = true ∧ pos.no.fillPrice = none
    ∧ monitorStep cfg pos ms menv =
        ({ pos with status := ("done") }, MonitorExit.bothFilledDone, []) := by
  obtain ⟨-, -, -, -, hyes, hno⟩ := executeMMStrategyEntry_entered hEnt
  have hyf : pos.yes.filled = true := by
    rw [hyes, hYes]
    rfl
  have hnf : pos.no.filled = true := by
    rw [hno, hNo]
    rfl
  have hyp : pos.yes.fillPrice = none := by
    rw [hyes]
  have hnp : pos.no.fillPrice = none := by
    rw [hno]
  refine ⟨hyf, hyp, hnf, hnp, ?_⟩
  unfold monitorStep
  rw [if_neg (not_le.mpr hms)]
  have hcy : checkLegFill cfg menv.yesOrderFilled menv.yesSimHit pos.yes = pos.yes := by
    unfold checkLegFill
    rw [if_pos hyf]
  have hcn : checkLegFill cfg menv.noOrderFilled menv.noSimHit pos.no = pos.no := by
    unfold checkLegFill
    rw [if_pos hnf]
  rw [hcy, hcn]
  rw [if_pos ⟨hyf, hnf⟩]

/-- Witness for C9: the concrete failed-placements entry yields the expected
position, and one monitoring step at 1 second remaining ends it as done with
no effects. -/
theorem c9_failed_placements_witness :
    posFailedSells.yes.filled = true ∧ posFailedSells.yes.fillPrice = none
    ∧ posFailedSells.no.filled = true ∧ posFailedSells.no.fillPrice = none
    ∧ monitorStep cfg5 posFailedSells 1000 monEnvAny =
        ({ posFailedSells with status := ("done") }, MonitorExit.bothFilledDone, []) :=
  c9_failed_placements cfg5 mktW entryEnvFailedSells 1000 monEnvAny
    [SafeCallKind.splitCall 10]
    [(mktW.yesTokenId, 10, cfg5.mmSellPrice), (mktW.noTokenId, 10, cfg5.mmSellPrice)]
    posFailedSells
    (by norm_num [executeMMStrategyEntry, splitPosition, MIN_SHARES_PER_SIDE, cfg5, mktW,
      entryEnvFailedSells, posFailedSells])
    rfl rfl (by norm_num)

-- ── Helper lemmas on the dispatcher maps ────────────────────────────────────

lemma mapSet_cons_ne (p : String × QueuedMarket) (rest : List (String × QueuedMarket))
    (k : String) (v : QueuedMarket) (hp : ¬ p.1 = k) :
    mapSet (p :: rest) k v = p :: mapSet rest k v := by
  unfold mapSet
  by_cases hany : (rest.any fun x => decide (x.1 = k)) = true
  · have h1 : ((p :: rest).any fun x => decide (x.1 = k)) = true := by
      simp only [List.any_cons, hany, Bool.or_true]
    rw [if_pos h1, if_pos hany, List.map_cons, if_neg hp]
  · have h1 : ¬ ((p :: rest).any fun x => decide (x.1 = k)) = true := by
      simp only [List.any_cons, Bool.or_eq_true, not_or]
      exact ⟨by simp [hp], hany⟩
    rw [if_neg h1, if_neg hany, List.cons_append]

lemma mapGet_mapSet (l : List (String × QueuedMarket)) (k : String) (v : QueuedMarket) :
    mapGet (mapSet l k v) k = some v := by
  induction l with
  | nil =>
    simp [mapSet, mapGet]
  | cons p rest ih =>
    by_cases hp : p.1 = k
    · have h1 : ((p :: rest).any fun x => decide (x.1 = k)) = true := by
        simp [hp]
      unfold mapSet
      rw [if_pos h1, List.map_cons, if_pos hp]
      unfold mapGet
      simp only [List.find?_cons, decide_eq_true rfl]
      rfl
    · rw [mapSet_cons_ne p rest k v hp]
      unfold mapGet
      simp only [List.find?_cons]
      have : decide (p.1 = k) = false := by simp [hp]
      rw [this]
      exact ih

lemma mapGet_mapDelete (l : List (String × QueuedMarket)) (k : String) :
    mapGet (mapDelete l k) k = none := by
  induction l with
  | nil => simp [mapDelete, mapGet]
  | cons p rest ih =>
    unfold mapDelete
    by_cases hp : p.1 = k
    · rw [List.filter_cons]
      have h1 : decide (p.1 ≠ k) = false := by simp [hp]
      rw [h1]
      simp only [Bool.false_eq_true, if_false]
      exact ih
    · rw [List.filter_cons]
      have h1 : decide (p.1 ≠ k) = true := by simp [hp]
      rw [h1]
      rw [if_pos rfl]
      unfold mapGet
      simp only [List.find?_cons]
      have h2 : decide (p.1 = k) = false := by simp [hp]
      rw [h2]
      exact ih

lemma mapSet_keys_nodup (l : List (String × QueuedMarket)) (k : String) (v : QueuedMarket)
    (h : (l.map Prod.fst).Nodup) : ((mapSet l k v).map Prod.fst).Nodup := by
  unfold mapSet
  by_cases hmem : (l.any fun p => decide (p.1 = k)) = true
  · rw [if_pos hmem]
    have heq : (l.map (fun p => if p.1 = k then (k, v) else p)).map Prod.fst
        = l.map Prod.fst := by
      rw [List.map_map]
      apply List.map_congr_left
      intro p _
      by_cases hp : p.1 = k
      · simp [hp]
      · simp [hp]
    rw [heq]
    exact h
  · rw [if_neg hmem]
    rw [List.map_append]
    simp only [List.map_cons, List.map_nil]
    rw [List.nodup_append]
    refine ⟨h, List.nodup_singleton _, ?_⟩
    intro x hx hx2
    rw [List.mem_singleton] at hx2
    subst hx2
    obtain ⟨p, hp, hpk⟩ := List.mem_map.mp hx
    exact hmem (List.any_eq_true.mpr ⟨p, hp, by simp [hpk]⟩)

-- ── C7: the per-asset pending queue ─────────────────────────────────────────

/-- Claim C7: the dispatcher keeps at most one pending market per asset — a
market arriving for a busy asset replaces the prior pending entry and starts
nothing — and when the asset's live position terminates, the pending entry is
removed and started exactly when its remaining lifetime, in the rounded
seconds the code computes, strictly exceeds `mm_cut_loss_time`; otherwise it
is discarded. -/
theorem c7_dispatcher_queue (st : DispatcherState) (m : QueuedMarket) (a : String)
    (now cutLossTime : ℤ) :
    (st.activeAssets.contains m.asset = true →
      (handleNewMarket st m).2 = false
      ∧ mapGet (handleNewMarket st m).1.pending m.asset = some m)
    ∧ ((st.pending.map Prod.fst).Nodup →
        (((handleNewMarket st m).1.pending).map Prod.fst).Nodup)
    ∧ (∀ q, mapGet st.pending a = some q →
        ((onPositionTerminated st a now cutLossTime).2 = some q ↔
          cutLossTime < mathRoundMsToSec (q.endMs - now))
        ∧ mapGet (onPositionTerminated st a now cutLossTime).1.pending a = none)
    ∧ (mapGet st.pending a = none →
        (onPositionTerminated st a now cutLossTime).2 = none) := by
  refine ⟨?_, ?_, ?_, ?_⟩
  · intro hbusy
    unfold handleNewMarket
    rw [if_pos hbusy]
    exact ⟨rfl, mapGet_mapSet st.pending m.asset m⟩
  · intro hnd
    unfold handleNewMarket
    by_cases hbusy : st.activeAssets.contains m.asset
    · rw [if_pos hbusy]
      exact mapSet_keys_nodup st.pending m.asset m hnd
    · rw [if_neg hbusy]
      exact hnd
  · intro q hq
    unfold onPositionTerminated
    rw [hq]
    dsimp only
    by_cases hlife : cutLossTime < mathRoundMsToSec (q.endMs - now)
    · rw [if_pos hlife]
      exact ⟨⟨fun _ => hlife, fun _ => rfl⟩, mapGet_mapDelete st.pending a⟩
    · rw [if_neg hlife]
      refine ⟨⟨fun hh => absurd hh (by simp), fun hh => absurd hh hlife⟩, ?_⟩
      exact mapGet_mapDelete st.pending a
  · intro hq
    unfold onPositionTerminated
    rw [hq]

/-- Witness for C7: a market for the busy btc asset is queued (replacing
nothing starting), and on termination 60 s before its end with a 60 s
cut-loss horizon (500 s remaining, rounded seconds 500 > 60) it is started
and the pending slot cleared. -/
theorem c7_dispatcher_queue_witness :
    ((handleNewMarket dstBusy qmW).2 = false
      ∧ mapGet (handleNewMarket dstBusy qmW).1.pending qmW.asset = some qmW)
    ∧ ((onPositionTerminated { dstBusy with pending := [(qmW.asset, qmW)] } qmW.asset 0 60).2
          = some qmW
        ↔ (60 : ℤ) < mathRoundMsToSec (qmW.endMs - 0)) :=
  have h1 := c7_dispatcher_queue dstBusy qmW qmW.asset 0 60
  have h2 := c7_dispatcher_queue { dstBusy with pending := [(qmW.asset, qmW)] } qmW
    qmW.asset 0 60
  ⟨h1.1 (by decide), (h2.2.2.1 qmW (by decide)).1⟩

-- ── Helper lemmas on the promise-chain queue ────────────────────────────────

lemma chainQueue_foldl_run (calls : List (Nat × (Nat → AttemptEnv))) :
    ∀ (q : PromiseM Unit) (t0 : List QEv),
      (∀ tr, q tr = (tr ++ t0, Except.ok ())) →
      ∀ tr, (calls.foldl (fun qq c => (execSafeCallStep qq c.1 c.2).2) q) tr
        = (tr ++ (t0 ++ calls.flatMap (fun c => callEvents c.1 c.2)), Except.ok ()) := by
  induction calls with
  | nil =>
    intro q t0 hq tr
    simp only [List.foldl_nil, List.flatMap_nil, List.append_nil]
    exact hq tr
  | cons c rest ih =>
    intro q t0 hq tr
    have hq2 : ∀ tr2, (execSafeCallStep q c.1 c.2).2 tr2
        = (tr2 ++ (t0 ++ callEvents c.1 c.2), Except.ok ()) := by
      intro tr2
      unfold execSafeCallStep promiseCatchToUnit promiseThen
      dsimp only
      rw [hq tr2]
      dsimp only
      unfold callTask
      dsimp only
      rw [List.append_assoc]
    rw [List.foldl_cons, List.flatMap_cons]
    rw [ih ((execSafeCallStep q c.1 c.2).2) (t0 ++ callEvents c.1 c.2) hq2 tr]
    rw [List.append_assoc]

lemma queueTrace_eq (envs : List (Nat → AttemptEnv)) :
    queueTrace envs = (envs.enum).flatMap (fun c => callEvents c.1 c.2) := by
  unfold queueTrace chainQueue
  rw [chainQueue_foldl_run envs.enum (promisePure ()) []
    (by intro tr; unfold promisePure; rw [List.append_nil]) []]
  simp

lemma callEvents_callIdx (i : Nat) (env : Nat → AttemptEnv) :
    ∀ ev ∈ callEvents i env, QEv.callIdx ev = i := by
  intro ev h
  unfold callEvents at h
  rcases List.mem_append.mp h with h | h
  · obtain ⟨e, -, rfl⟩ := List.mem_map.mp h
    rfl
  · rw [List.mem_singleton] at h
    subst h
    rfl

lemma flatMap_enumFrom_idx_ge (l : List (Nat → AttemptEnv)) :
    ∀ (k : Nat) (ev : QEv),
      ev ∈ (List.enumFrom k l).flatMap (fun c => callEvents c.1 c.2) → k ≤ ev.callIdx := by
  induction l with
  | nil =>
    intro k ev h
    simp [List.enumFrom] at h
  | cons x xs ih =>
    intro k ev h
    rw [show List.enumFrom k (x :: xs) = (k, x) :: List.enumFrom (k + 1) xs from rfl,
      List.flatMap_cons] at h
    rcases List.mem_append.mp h with h | h
    · exact le_of_eq (callEvents_callIdx k x ev h).symm
    · exact le_trans (Nat.le_succ k) (ih (k + 1) ev h)

lemma pairwise_flatMap_enumFrom (l : List (Nat → AttemptEnv)) :
    ∀ k : Nat, List.Pairwise (fun a b : QEv => a.callIdx ≤ b.callIdx)
      ((List.enumFrom k l).flatMap (fun c => callEvents c.1 c.2)) := by
  induction l with
  | nil =>
    intro k
    simp [List.enumFrom]
  | cons x xs ih =>
    intro k
    rw [show List.enumFrom k (x :: xs) = (k, x) :: List.enumFrom (k + 1) xs from rfl,
      List.flatMap_cons, List.pairwise_append]
    refine ⟨?_, ih (k + 1), ?_⟩
    · apply List.pairwise_of_forall_mem_list
      intro a ha b hb
      rw [callEvents_callIdx k x a ha, callEvents_callIdx k x b hb]
    · intro a ha b hb
      rw [callEvents_callIdx k x a ha]
      exact le_trans (Nat.le_succ k) (flatMap_enumFrom_idx_ge xs (k + 1) b hb)

lemma doExec_head (env : Nat → AttemptEnv) :
    (doExecSafeCall env).1.head? = some (ExecEv.nonceRead 1) := by
  unfold doExecSafeCall MAX_RETRIES
  rw [doExecGo]
  cases hout : (env 1).outcome with
  | ok r => rfl
  | error err => rfl

lemma resolved_mem_callEvents (i : Nat) (env : Nat → AttemptEnv) :
    QEv.resolved i (doExecSafeCall env).2.isOk ∈ callEvents i env := by
  unfold callEvents
  exact List.mem_append.mpr (Or.inr (List.mem_singleton.mpr rfl))

-- ── C1: strict serialization with failure survival ──────────────────────────

/-- Claim C1: the global trace of the `execSafeCall` promise queue is exactly
the per-call event blocks in enqueue order (so the trace's call indices are
monotone: every event of a later call, beginning with its first nonce read,
comes after every event — including the settlement — of every earlier call),
and every enqueued call contributes its settlement event with its own
outcome, with no assumption that earlier calls succeeded: one member's
failure does not halt the queue. -/
theorem c1_queue_serialization (envs : List (Nat → AttemptEnv)) :
    queueTrace envs = (envs.enum).flatMap (fun c => callEvents c.1 c.2)
    ∧ List.Pairwise (fun a b : QEv => a.callIdx ≤ b.callIdx) (queueTrace envs)
    ∧ (∀ c ∈ envs.enum,
        (callEvents c.1 c.2).head? = some (QEv.exec c.1 (ExecEv.nonceRead 1))
        ∧ QEv.resolved c.1 (doExecSafeCall c.2).2.isOk ∈ queueTrace envs) := by
  refine ⟨queueTrace_eq envs, ?_, ?_⟩
  · rw [queueTrace_eq envs]
    exact pairwise_flatMap_enumFrom envs 0
  · intro c hc
    constructor
    · unfold callEvents
      have hh := doExec_head c.2
      rcases hhd : (doExecSafeCall c.2).1 with _ | ⟨e, rest⟩
      · rw [hhd] at hh
        cases hh
      · rw [hhd] at hh
        have he : e = ExecEv.nonceRead 1 := by
          simpa using hh
        rw [he]
        rfl
    · rw [queueTrace_eq envs]
      exact List.mem_flatMap.mpr ⟨c, hc, resolved_mem_callEvents c.1 c.2⟩

/-- Witness for C1: with call 0 failing every attempt (execution reverted)
and call 1 succeeding, the trace still carries call 0's failed settlement and
call 1's successful settlement, and call 1's block starts with its nonce
read. -/
theorem c1_queue_serialization_witness :
    (callEvents 1 envAllOk).head? = some (QEv.exec 1 (ExecEv.nonceRead 1))
    ∧ QEv.resolved 0 false ∈ queueTrace [envAllRevert, envAllOk]
    ∧ QEv.resolved 1 true ∈ queueTrace [envAllRevert, envAllOk] :=
  have h := c1_queue_serialization [envAllRevert, envAllOk]
  have h0 := h.2.2 (0, envAllRevert) (by simp [List.enum, List.enumFrom])
  have h1 := h.2.2 (1, envAllOk) (by simp [List.enum, List.enumFrom])
  ⟨h1.1, h0.2, h1.2⟩

end PolymarketTerminal
